import Mathlib

/-!
Verification of the helpdesk-rag-demo ingestion scripts.

Shallow embedding of the decision logic of
`scripts/import_and_wait_rag_files.py`, `scripts/import_with_sink.py`,
`scripts/import_with_sink_chunked.py` and of the `/api/ask` handler of
`demo_app/main.py`.

JSON payloads are modelled as structures whose `Option` fields stand for
fields that may be absent; a field whose Python access uses
`x or default` collapses a falsy value (absent, empty string, empty
container) to the default through the helpers below.  Wall-clock loops
(`while time.time() < deadline: ...`) are modelled by the finite trace of
remote answers observed before the deadline: exhausting the trace is the
deadline passing.
-/

namespace HelpdeskRag

/-- Python `s or d` for an optional string field: an absent or empty
string collapses to the default `d`. -/
def pyOrStr (o : Option String) (d : String) : String :=
  match o with
  | none => d
  | some s => if s = "" then d else s

/-- Python truthiness of an optional string (`if rf.get("name")`). -/
def truthyStr (o : Option String) : Bool :=
  match o with
  | none => false
  | some s => !(s == "")

/-! ## Operation payloads -/

/-- `operation.response`.  The remote service encodes
`failedRagFilesCount` as a decimal string; the scripts read it with
`int(resp.get("failedRagFilesCount", "0"))`, so the field is modelled by
its parsed non-negative value, `none` when absent (Python default `"0"`,
i.e. `0`). -/
structure OpResponse where
  failedRagFilesCount : Option Nat
deriving Repr, DecidableEq

/-- `operation.metadata.genericMetadata` (`md.get("genericMetadata") or {}`). -/
structure GenericMetadata where
  partialFailures : Option (List String)
deriving Repr, DecidableEq

/-- `operation.metadata` (`op.get("metadata") or {}`). -/
structure OpMetadata where
  genericMetadata : Option GenericMetadata
deriving Repr, DecidableEq

/-- One fetched operation snapshot.  `error` is `some payload` when the
field is present (and truthy, as the scripts test `if op.get("error")`);
the payload itself is kept opaque as its JSON text. -/
structure Operation where
  done : Option Bool
  error : Option String
  response : Option OpResponse
  metadata : Option OpMetadata
deriving Repr, DecidableEq

/-- `bool(op.get("done", False))`. -/
def opDone (op : Operation) : Bool :=
  op.done.getD false

/-- `extract_partial_failures` of `import_and_wait_rag_files.py` (the sink
variants inline the identical expression):
`((op.get("metadata") or {}).get("genericMetadata") or {}).get("partialFailures") or []`. -/
def extract_partial_failures (op : Operation) : List String :=
  (((op.metadata.getD ⟨none⟩).genericMetadata.getD ⟨none⟩).partialFailures).getD []

/-- `int((op.get("response") or {}).get("failedRagFilesCount", "0"))`. -/
def failed_count (op : Operation) : Nat :=
  ((op.response.getD ⟨none⟩).failedRagFilesCount).getD 0

/-! ## Operation poller of `import_and_wait_rag_files.py` (lines 108-143) -/

/-- Result of the operation-polling loop.  The three failure
constructors carry the payload the script prints for the report. -/
inductive PollResult where
  | timedOut
  | opError (e : String)
  | importFailures (resp : OpResponse) (pf : List String)
  | completed
deriving Repr, DecidableEq

/-- The `done`-branch of the polling loop: `error` first, then
`failed_count > 0 or partial_failures`, else success. -/
def classify_done_op (op : Operation) : PollResult :=
  match op.error with
  | some e => .opError e
  | none =>
      if 0 < failed_count op ∨ extract_partial_failures op ≠ [] then
        .importFailures (op.response.getD ⟨none⟩) (extract_partial_failures op)
      else .completed

/-- The polling loop over the trace of snapshots fetched before the
deadline (`while time.time() < deadline`): a not-`done` snapshot sleeps
and refetches, the first `done` snapshot is classified, an exhausted
trace is the deadline passing (`else: ... sys.exit(1)`). -/
def poll_operation : List Operation → PollResult
  | [] => .timedOut
  | op :: rest =>
      if opDone op then classify_done_op op else poll_operation rest

/-! ## Resource records -/

/-- `ragFile.fileStatus` (`rf.get("fileStatus") or {}`). -/
structure FileStatus where
  state : Option String
  errorStatus : Option String
deriving Repr, DecidableEq

/-- One resource record from the listing or an individual fetch. -/
structure RagFile where
  name : Option String
  fileStatus : Option FileStatus
deriving Repr, DecidableEq

/-- `rag_file_state`: `(fs.get("state") or "STATE_UNSPECIFIED",
fs.get("errorStatus") or "")`. -/
def rag_file_state (rf : RagFile) : String × String :=
  let fs := rf.fileStatus.getD ⟨none, none⟩
  (pyOrStr fs.state "STATE_UNSPECIFIED", pyOrStr fs.errorStatus "")

/-! ## Paginated listing (`list_rag_files`, lines 65-76) -/

/-- One page of the `ragFiles` listing: `resp.get("ragFiles", [])` and
`resp.get("nextPageToken")`. -/
structure ListPage where
  ragFiles : List RagFile
  nextPageToken : Option String
deriving Repr, DecidableEq

/-- The pagination loop over the response sequence the server returns:
each iteration appends the page's records, then follows
`nextPageToken`; a falsy token (`if not page_token: break`) stops. -/
def list_rag_files : List ListPage → List RagFile
  | [] => []
  | p :: rest =>
      p.ragFiles ++ (if truthyStr p.nextPageToken then list_rag_files rest else [])

/-! ## Discovery phase (lines 146-159) -/

/-- `[rf.get("name") for rf in rag_files if rf.get("name")]`. -/
def extract_names (rfs : List RagFile) : List String :=
  rfs.filterMap fun rf =>
    match rf.name with
    | some s => if s = "" then none else some s
    | none => none

/-- The discovery loop over the trace of listings observed before the
deadline: break on the first listing with a non-empty name list, `none`
when the deadline passes with every listing empty
(`exit_with_error("... no RagFiles found ...")`). -/
def discovery_loop : List (List RagFile) → Option (List String)
  | [] => none
  | l :: rest =>
      let names := extract_names l
      if names.isEmpty then discovery_loop rest else some names

/-! ## Activation phase (lines 163-188) -/

/-- Result of one sweep `for name in list(pending): ...`: the first
resource seen in state `ERROR` aborts (`sys.exit(1)`), otherwise the
names still pending (state not `ACTIVE`) survive in snapshot order. -/
inductive SweepRes where
  | errored (name : String) (err : String)
  | ok (pending : List String)
deriving Repr, DecidableEq

/-- One sweep over the snapshot of the pending set: fetch each name,
remove it on `ACTIVE`, abort on `ERROR`, keep it otherwise. -/
def run_sweep (fetch : String → RagFile) : List String → SweepRes
  | [] => .ok []
  | n :: rest =>
      let st := rag_file_state (fetch n)
      if st.1 = "ACTIVE" then run_sweep fetch rest
      else if st.1 = "ERROR" then .errored n st.2
      else
        match run_sweep fetch rest with
        | .errored m e => .errored m e
        | .ok p => .ok (n :: p)

/-- The names actually fetched (`get_rag_file`) during one sweep: every
name up to and including the first `ERROR` one, all of them when no
fetch reports `ERROR`. -/
def sweep_fetched (fetch : String → RagFile) : List String → List String
  | [] => []
  | n :: rest =>
      n :: (if (rag_file_state (fetch n)).1 = "ERROR" then []
            else sweep_fetched fetch rest)

/-- One activation sweep of the trace: the per-sweep fetch answers, and
the iteration order `list(pending)` imposes on the pending set (a CPython
`set` iterates in an unspecified order, so the order is a parameter). -/
structure Sweep where
  fetch : String → RagFile
  order : List String → List String

/-- Terminal outcome of one run of `import_and_wait_rag_files.py`'s
`main`. -/
inductive RunOutcome where
  | pollTimeout
  | pollOpError (e : String)
  | pollImportFailures (resp : OpResponse) (pf : List String)
  | discoveryTimeout
  | resourceError (name : String) (err : String)
  | activationTimeout (pending : List String)
  | success
deriving Repr, DecidableEq

/-- Process exit code of each outcome: `0` on full success, `1`
otherwise. -/
def exit_code : RunOutcome → Nat
  | .success => 0
  | _ => 1

/-- The activation loop `while pending and time.time() < rf_deadline`
over the trace of sweeps that fit before the deadline: an empty pending
set succeeds, an exhausted trace with work left is the
`ActivationTimeout` branch, otherwise one sweep runs and the loop
continues on the surviving names. -/
def activation_loop : List Sweep → List String → RunOutcome
  | _, [] => .success
  | [], p => .activationTimeout p
  | s :: ss, p =>
      match run_sweep s.fetch (s.order p) with
      | .errored n e => .resourceError n e
      | .ok p' => activation_loop ss p'

/-- All names fetched across the activation sweeps (the per-sweep
fetched names, stopping when a sweep aborts). -/
def activation_fetched : List Sweep → List String → List String
  | _, [] => []
  | [], _ => []
  | s :: ss, p =>
      let snap := s.order p
      sweep_fetched s.fetch snap ++
        (match run_sweep s.fetch snap with
         | .errored _ _ => []
         | .ok p' => activation_fetched ss p')

/-- Discovery followed by activation (`pending = set(names)`: the name
list is deduplicated; each sweep's `order` supplies the set's iteration
order). -/
def tracker_run (listTrace : List (List RagFile)) (sweeps : List Sweep) : RunOutcome :=
  match discovery_loop listTrace with
  | none => .discoveryTimeout
  | some names => activation_loop sweeps names.dedup

/-- The whole `main` of `import_and_wait_rag_files.py` after submission:
poll the operation, and only on `COMPLETED` run discovery and
activation. -/
def import_and_wait_run (opTrace : List Operation)
    (listTrace : List (List RagFile)) (sweeps : List Sweep) : RunOutcome :=
  match poll_operation opTrace with
  | .timedOut => .pollTimeout
  | .opError e => .pollOpError e
  | .importFailures r p => .pollImportFailures r p
  | .completed => tracker_run listTrace sweeps

/-! ## Sink variants (`import_with_sink.py`, `import_with_sink_chunked.py`) -/

/-- A `subprocess.run` result (`run(["gsutil", ...])`). -/
structure SubprocResult where
  returncode : Int
  stdout : String
  stderr : String
deriving Repr, DecidableEq

/-- The result line both sink variants print once the operation is
`done` (lines 101-119 of `import_with_sink.py`, 79-96 of
`import_with_sink_chunked.py`): operation error, reported import
failures (`failed_count > 0 or pf`), or success. -/
inductive DoneClassification where
  | failedOpError (e : String)
  | failedImport (resp : OpResponse) (pf : List String)
  | successReport (resp : OpResponse)
deriving Repr, DecidableEq

/-- Shared `done`-branch classification of the two sink variants. -/
def sink_classify (op : Operation) : DoneClassification :=
  match op.error with
  | some e => .failedOpError e
  | none =>
      if 0 < failed_count op ∨ extract_partial_failures op ≠ [] then
        .failedImport (op.response.getD ⟨none⟩) (extract_partial_failures op)
      else .successReport (op.response.getD ⟨none⟩)

/-- Whether the printed result line says `FAILED`. -/
def classification_is_failure : DoneClassification → Bool
  | .successReport _ => false
  | _ => true

/-- Exit code of `import_with_sink.py` once the operation is `done`,
as a function of the snapshot and the two sink subprocesses (lines
121-139): `gsutil ls` exiting non-zero returns `1`; otherwise the `cat`
output is only printed and the final line returns
`0 if (obj.get("error") is None and int(... failedRagFilesCount ...) == 0) else 1`. -/
def import_with_sink_done_exit (op : Operation) (ls _cat : SubprocResult) : Int :=
  if ls.returncode ≠ 0 then 1
  else if op.error = none ∧ failed_count op = 0 then 0 else 1

/-- Exit code of `import_with_sink_chunked.py` once the operation is
`done` (lines 98-108): both subprocess results are only printed, and the
final line returns
`0 if (op.get("error") is None and int(... failedRagFilesCount ...) == 0) else 1`. -/
def import_with_sink_chunked_done_exit (op : Operation)
    (_ls _cat : SubprocResult) : Int :=
  if op.error = none ∧ failed_count op = 0 then 0 else 1

/-- The final-return expression shared by both sink variants with the
sink step stripped out: the success/failure outcome the workflow itself
computed.  (Spec §4.4/§9: the sink listing is pure reporting and must
never affect this value.) -/
def done_exit_no_sink (op : Operation) : Int :=
  if op.error = none ∧ failed_count op = 0 then 0 else 1

/-! ## HTTP reads (`http_json`, lines 27-50, and the variants' GETs) -/

/-- One attempted HTTP read, as the scripts observe it: the request
raised (transport failure), or a response arrived with a status code and
a body that either parses as JSON (`some`, here already decoded into
`α`) or does not (`none`). -/
inductive HttpAttempt (α : Type) where
  | transportError (msg : String)
  | response (status : Nat) (body : Option α)
deriving Repr, DecidableEq

/-- `http_json` of `import_and_wait_rag_files.py`: a raised request, a
status outside `[200, 300)` or a non-JSON body all call
`exit_with_error` (process exit `1`); only a 2xx JSON body is returned. -/
def http_json {α : Type} : HttpAttempt α → Except Nat α
  | .transportError _ => .error 1
  | .response st body =>
      if 200 ≤ st ∧ st < 300 then
        match body with
        | some a => .ok a
        | none => .error 1
      else .error 1

/-- The polling loop of `import_and_wait_rag_files.py` at the HTTP
layer: every snapshot comes through `http_json`, whose failure exit
aborts the whole run (`Except.error exitCode`). -/
def poll_operation_http (trace : List (HttpAttempt Operation)) : Except Nat PollResult :=
  match trace with
  | [] => .ok .timedOut
  | a :: rest =>
      match http_json a with
      | .error c => .error c
      | .ok op => if opDone op then .ok (classify_done_op op)
                  else poll_operation_http rest

/-- Result of the operation-polling loop of the two sink variants at the
HTTP layer.  `crashed` is an uncaught Python exception (the process dies
with a non-zero exit and a traceback); `httpError` is the explicit
`return 1` of `import_with_sink.py` on `status_code >= 400`. -/
inductive SinkPollRes where
  | crashed
  | httpError
  | doneOp (op : Operation)
  | timedOut
deriving Repr, DecidableEq

/-- The polling loop of `import_with_sink.py` (lines 84-97): the GET may
raise (uncaught), a status `>= 400` returns `1`, then `r.json()` may
raise (uncaught), and only then is `done` inspected. -/
def sink_poll_loop : List (HttpAttempt Operation) → SinkPollRes
  | [] => .timedOut
  | .transportError _ :: _ => .crashed
  | .response st none :: _ =>
      if 400 ≤ st then .httpError else .crashed
  | .response st (some op) :: rest =>
      if 400 ≤ st then .httpError
      else if opDone op then .doneOp op else sink_poll_loop rest

/-- The polling loop of `import_with_sink_chunked.py` (lines 70-75):
`op = session.get(op_url, timeout=60).json()` — the GET may raise and
`.json()` may raise (both uncaught), but the status code is never
inspected: whatever JSON body arrives is treated as the operation
snapshot. -/
def chunked_poll_loop : List (HttpAttempt Operation) → SinkPollRes
  | [] => .timedOut
  | .transportError _ :: _ => .crashed
  | .response _ none :: _ => .crashed
  | .response _ (some op) :: rest =>
      if opDone op then .doneOp op else chunked_poll_loop rest

/-! ## `/api/ask` of `demo_app/main.py` (lines 144-162) -/

/-- One retrieved context snippet as the handler reads it.  The raw
record may carry more fields (`sourceDisplayName` is read by
`generate_answer` but not exposed); snippet text is a sequence of code
points, so Python's `s[:800]` is `List.take 800`.  The relevance score
is passed through untouched, so its type is a parameter. -/
structure RetrievedContext (σ : Type) where
  sourceUri : Option String
  sourceDisplayName : Option String
  score : Option σ
  text : Option (List Char)

/-- One element of the `"contexts"` list the handler returns: exactly
the three keys `sourceUri`, `score` and `text` of the JSON object built
in `ask`. -/
structure AskContext (σ : Type) where
  sourceUri : Option String
  score : Option σ
  text : List Char

/-- The per-context projection of `ask`:
`{"sourceUri": c.get("sourceUri"), "score": c.get("score"),
"text": (c.get("text") or "")[:800]}`. -/
def ask_context {σ : Type} (c : RetrievedContext σ) : AskContext σ :=
  { sourceUri := c.sourceUri
    score := c.score
    text := (c.text.getD []).take 800 }

/-- The `"contexts"` list of a successful `/api/ask` response. -/
def ask_contexts {σ : Type} (cs : List (RetrievedContext σ)) : List (AskContext σ) :=
  cs.map ask_context

/-! ## Helper lemmas -/

/-- Polling skips every not-yet-`done` snapshot. -/
theorem poll_operation_skip (pre rest : List Operation)
    (h : ∀ o ∈ pre, opDone o = false) :
    poll_operation (pre ++ rest) = poll_operation rest := by
  induction pre with
  | nil => rfl
  | cons o os ih =>
      have ho : opDone o = false := h o (by simp)
      simp only [List.cons_append, poll_operation, ho, Bool.false_eq_true, if_false]
      exact ih fun x hx => h x (by simp [hx])

/-- The `done`-branch succeeds exactly when no error, a zero failed
count and no partial failures are reported. -/
theorem classify_done_op_eq_completed (op : Operation) :
    classify_done_op op = .completed ↔
      op.error = none ∧ failed_count op = 0 ∧ extract_partial_failures op = [] := by
  unfold classify_done_op
  cases herr : op.error with
  | some e => simp [herr]
  | none =>
      by_cases hf : 0 < failed_count op ∨ extract_partial_failures op ≠ []
      · rw [if_pos hf]
        constructor
        · intro h; cases h
        · rintro ⟨-, h0, hpf⟩
          rcases hf with hf | hf
          · omega
          · exact absurd hpf hf
      · rw [if_neg hf]
        push_neg at hf
        constructor
        · intro _
          exact ⟨rfl, by omega, hf.2⟩
        · intro _
          rfl

/-- A sample clean snapshot: `done`, no error, zero failed count. -/
def op_success : Operation :=
  { done := some true, error := none
    response := some { failedRagFilesCount := some 0 }
    metadata := none }

theorem poll_op_success : poll_operation [op_success] = .completed := by
  rfl

/-- C3: at the first `done=true` snapshot the poller reaches `COMPLETED`
exactly when `error` is absent, the failed count is zero and the
partial-failure list is empty; any other combination stops at once (the
rest of the trace is never read) with the triggering payload recorded
and a non-zero exit; only `COMPLETED` hands over to the resource
tracker; a trace that never turns `done` times out and exits non-zero. -/
theorem C3_poller_transitions
    (pre : List Operation) (op : Operation) (rest : List Operation)
    (hpre : ∀ o ∈ pre, opDone o = false) (hop : opDone op = true) :
    (poll_operation (pre ++ op :: rest) = .completed ↔
        op.error = none ∧ failed_count op = 0 ∧ extract_partial_failures op = [])
    ∧ (∀ e, op.error = some e →
        poll_operation (pre ++ op :: rest) = .opError e)
    ∧ (op.error = none →
        (0 < failed_count op ∨ extract_partial_failures op ≠ []) →
        poll_operation (pre ++ op :: rest) =
          .importFailures (op.response.getD ⟨none⟩) (extract_partial_failures op))
    ∧ (poll_operation (pre ++ op :: rest) = .completed →
        ∀ listTrace sweeps,
          import_and_wait_run (pre ++ op :: rest) listTrace sweeps =
            tracker_run listTrace sweeps)
    ∧ (poll_operation (pre ++ op :: rest) ≠ .completed →
        ∀ listTrace sweeps,
          exit_code (import_and_wait_run (pre ++ op :: rest) listTrace sweeps) = 1)
    ∧ (∀ trace : List Operation, (∀ o ∈ trace, opDone o = false) →
        poll_operation trace = .timedOut ∧
        ∀ listTrace sweeps,
          exit_code (import_and_wait_run trace listTrace sweeps) = 1) := by
  have hstop : poll_operation (pre ++ op :: rest) = classify_done_op op := by
    rw [poll_operation_skip pre (op :: rest) hpre]
    simp [poll_operation, hop]
  refine ⟨?_, ?_, ?_, ?_, ?_, ?_⟩
  · rw [hstop]; exact classify_done_op_eq_completed op
  · intro e he
    rw [hstop]; unfold classify_done_op; rw [he]
  · intro he hf
    rw [hstop]; unfold classify_done_op; rw [he]
    simp only [hf, if_true]
  · intro hc listTrace sweeps
    unfold import_and_wait_run
    rw [hc]
  · intro hc listTrace sweeps
    unfold import_and_wait_run
    rw [hstop] at hc ⊢
    cases h : classify_done_op op <;> simp_all [exit_code]
  · intro trace htr
    have : poll_operation trace = .timedOut := by
      have := poll_operation_skip trace [] htr
      simpa using this
    exact ⟨this, fun listTrace sweeps => by
      unfold import_and_wait_run; rw [this]; rfl⟩

/-- Witness for C3: the poller completes on a clean `done` snapshot. -/
theorem C3_poller_transitions_witness :
    poll_operation [op_success] = .completed :=
  (C3_poller_transitions [] op_success [] (by simp) (by rfl)).1.mpr
    (by refine ⟨rfl, rfl, rfl⟩)

/-- An all-empty discovery trace reaches the timeout branch. -/
theorem discovery_loop_all_empty (listTrace : List (List RagFile))
    (h : ∀ l ∈ listTrace, extract_names l = []) :
    discovery_loop listTrace = none := by
  induction listTrace with
  | nil => rfl
  | cons l ls ih =>
      have hl : extract_names l = [] := h l (by simp)
      simp only [discovery_loop, hl, List.isEmpty_nil, if_true]
      exact ih fun x hx => h x (by simp [hx])

/-- C5: when every listing observed before the discovery deadline is
empty, the run fails with `DiscoveryTimeout` and exit code 1, and the
activation phase is never entered — the outcome does not depend on the
activation sweeps at all. -/
theorem C5_discovery_timeout (opTrace : List Operation)
    (hpoll : poll_operation opTrace = .completed)
    (listTrace : List (List RagFile))
    (hempty : ∀ l ∈ listTrace, extract_names l = []) :
    discovery_loop listTrace = none
    ∧ (∀ sweeps, import_and_wait_run opTrace listTrace sweeps = .discoveryTimeout)
    ∧ (∀ sweeps, exit_code (import_and_wait_run opTrace listTrace sweeps) = 1)
    ∧ (∀ sweeps sweeps',
        import_and_wait_run opTrace listTrace sweeps =
          import_and_wait_run opTrace listTrace sweeps') := by
  have hd : discovery_loop listTrace = none :=
    discovery_loop_all_empty listTrace hempty
  have hrun : ∀ sweeps,
      import_and_wait_run opTrace listTrace sweeps = .discoveryTimeout := by
    intro sweeps
    unfold import_and_wait_run
    rw [hpoll]
    unfold tracker_run
    rw [hd]
  exact ⟨hd, hrun, fun sweeps => by rw [hrun sweeps]; rfl,
    fun sweeps sweeps' => by rw [hrun sweeps, hrun sweeps']⟩

/-- Witness for C5: a clean operation, two empty listings before the
deadline, a sweep available but never entered. -/
theorem C5_discovery_timeout_witness :
    import_and_wait_run [op_success] [[], []] [] = .discoveryTimeout :=
  ((C5_discovery_timeout [op_success] poll_op_success [[], []] (by decide)).2.1) []

/-- C6: over a well-formed page sequence (every page but the last
carries a continuation token, the last does not), the pagination loop
returns the concatenation of every page's records in page order. -/
theorem C6_pagination_concat (ps : List ListPage) (lastPage : ListPage)
    (hps : ∀ p ∈ ps, truthyStr p.nextPageToken = true)
    (hlast : truthyStr lastPage.nextPageToken = false) :
    list_rag_files (ps ++ [lastPage]) =
      ((ps ++ [lastPage]).map ListPage.ragFiles).flatten := by
  induction ps with
  | nil =>
      simp [list_rag_files, hlast]
  | cons p ps ih =>
      have hp : truthyStr p.nextPageToken = true := hps p (by simp)
      have ih' := ih fun x hx => hps x (by simp [hx])
      simp only [List.cons_append, list_rag_files, hp, if_true, List.map_cons,
        List.flatten_cons]
      rw [List.append_eq, ih']

/-- Witness for C6: two pages, the first with a token, concatenated in
order. -/
theorem C6_pagination_concat_witness :
    list_rag_files
        [⟨[⟨some "f1", none⟩], some "tok"⟩, ⟨[⟨some "f2", none⟩], none⟩] =
      [⟨some "f1", none⟩, ⟨some "f2", none⟩] := by
  have h := C6_pagination_concat [⟨[⟨some "f1", none⟩], some "tok"⟩]
    ⟨[⟨some "f2", none⟩], none⟩
    (by decide) (by rfl)
  simpa using h

/-- A state equal to `"ERROR"` is not `"ACTIVE"`. -/
theorem error_ne_active {s : String} (h : s = "ERROR") : ¬s = "ACTIVE" := by
  rw [h]; decide

/-- A sweep whose snapshot holds an `ERROR` resource aborts at the first
one, reporting its name and error detail. -/
theorem run_sweep_error_first (f : String → RagFile) (pre post : List String)
    (n : String)
    (hpre : ∀ m ∈ pre, (rag_file_state (f m)).1 ≠ "ERROR")
    (hn : (rag_file_state (f n)).1 = "ERROR") :
    run_sweep f (pre ++ n :: post) = .errored n (rag_file_state (f n)).2 := by
  induction pre with
  | nil =>
      simp only [List.nil_append, run_sweep]
      rw [if_neg (error_ne_active hn), if_pos hn]
  | cons m pre ih =>
      have hm := hpre m (by simp)
      have ih' := ih fun x hx => hpre x (by simp [hx])
      simp only [List.cons_append, run_sweep]
      by_cases hma : (rag_file_state (f m)).1 = "ACTIVE"
      · rw [if_pos hma]
        exact ih'
      · rw [if_neg hma, if_neg hm, List.append_eq, ih']

/-- In such a sweep, exactly the names up to and including the first
`ERROR` one are fetched. -/
theorem sweep_fetched_error_first (f : String → RagFile) (pre post : List String)
    (n : String)
    (hpre : ∀ m ∈ pre, (rag_file_state (f m)).1 ≠ "ERROR")
    (hn : (rag_file_state (f n)).1 = "ERROR") :
    sweep_fetched f (pre ++ n :: post) = pre ++ [n] := by
  induction pre with
  | nil =>
      simp only [List.nil_append, sweep_fetched]
      rw [if_pos hn]
  | cons m pre ih =>
      have hm := hpre m (by simp)
      have ih' := ih fun x hx => hpre x (by simp [hx])
      simp only [List.cons_append, sweep_fetched]
      rw [if_neg hm, List.append_eq, ih']

/-- A sweep with no `ERROR` resource fetches every snapshot name. -/
theorem sweep_fetched_no_error (f : String → RagFile) (snap : List String)
    (h : ∀ m ∈ snap, (rag_file_state (f m)).1 ≠ "ERROR") :
    sweep_fetched f snap = snap := by
  induction snap with
  | nil => rfl
  | cons m rest ih =>
      simp only [sweep_fetched]
      rw [if_neg (h m (by simp)), ih fun x hx => h x (by simp [hx])]

/-- Every name fetched in a sweep was in its snapshot. -/
theorem mem_of_mem_sweep_fetched (f : String → RagFile) (snap : List String)
    (x : String) (hx : x ∈ sweep_fetched f snap) : x ∈ snap := by
  induction snap with
  | nil => simp [sweep_fetched] at hx
  | cons m rest ih =>
      simp only [sweep_fetched] at hx
      rcases List.mem_cons.mp hx with rfl | hx'
      · exact List.mem_cons_self x rest
      · by_cases hme : (rag_file_state (f m)).1 = "ERROR"
        · rw [if_pos hme] at hx'
          cases hx'
        · rw [if_neg hme] at hx'
          exact List.mem_cons_of_mem m (ih hx')

/-- A sweep that completes keeps exactly the snapshot names whose state
is not `ACTIVE`, in snapshot order. -/
theorem run_sweep_ok_filter (f : String → RagFile) (snap p' : List String)
    (h : run_sweep f snap = .ok p') :
    p' = snap.filter fun m => !((rag_file_state (f m)).1 == "ACTIVE") := by
  induction snap generalizing p' with
  | nil =>
      simp only [run_sweep] at h
      cases h
      rfl
  | cons m rest ih =>
      simp only [run_sweep] at h
      by_cases hma : (rag_file_state (f m)).1 = "ACTIVE"
      · rw [if_pos hma] at h
        rw [ih _ h, List.filter_cons]
        simp [hma]
      · rw [if_neg hma] at h
        by_cases hme : (rag_file_state (f m)).1 = "ERROR"
        · rw [if_pos hme] at h
          cases h
        · rw [if_neg hme] at h
          cases hr : run_sweep f rest with
          | errored a b =>
              rw [hr] at h
              cases h
          | ok q =>
              rw [hr] at h
              cases h
              have hbeq : ((rag_file_state (f m)).1 == "ACTIVE") = false :=
                beq_eq_false_iff_ne.mpr hma
              rw [List.filter_cons]
              simp only [hbeq, Bool.not_false, if_true]
              rw [ih _ hr]

/-- Names never pending are never fetched by the activation loop,
provided each sweep's iteration order only permutes the pending set. -/
theorem not_mem_activation_fetched (sweeps : List Sweep) (p : List String)
    (n : String)
    (hord : ∀ s ∈ sweeps, ∀ l x, x ∈ s.order l → x ∈ l)
    (hn : n ∉ p) : n ∉ activation_fetched sweeps p := by
  induction sweeps generalizing p with
  | nil =>
      cases p <;> simp [activation_fetched]
  | cons s ss ih =>
      cases p with
      | nil => simp [activation_fetched]
      | cons a as =>
          simp only [activation_fetched]
          intro hmem
          rcases List.mem_append.mp hmem with h1 | h2
          · exact hn (hord s (by simp) _ n (mem_of_mem_sweep_fetched _ _ _ h1))
          · cases hr : run_sweep s.fetch (s.order (a :: as)) with
            | errored c d =>
                rw [hr] at h2
                cases h2
            | ok p' =>
                rw [hr] at h2
                have hnp' : n ∉ p' := by
                  intro hmem'
                  rw [run_sweep_ok_filter _ _ _ hr] at hmem'
                  exact hn (hord s (by simp) _ n (List.mem_of_mem_filter hmem'))
                exact ih _ (fun t ht => hord t (by simp [ht])) hnp' h2

/-- C4: a resource in state `ERROR` aborts the whole attempt on the spot:
the sweep stops at the first `ERROR` resource, reports its name and
error detail, fetches nothing after it (the rest of the snapshot and all
later sweeps are skipped), and the run exits non-zero regardless of the
states of the other resources. -/
theorem C4_resource_error_aborts
    (f : String → RagFile) (ord : List String → List String) (ss : List Sweep)
    (p pre post : List String) (n : String)
    (hp : p ≠ [])
    (hsnap : ord p = pre ++ n :: post)
    (hpre : ∀ m ∈ pre, (rag_file_state (f m)).1 ≠ "ERROR")
    (hn : (rag_file_state (f n)).1 = "ERROR") :
    run_sweep f (pre ++ n :: post) = .errored n (rag_file_state (f n)).2
    ∧ sweep_fetched f (pre ++ n :: post) = pre ++ [n]
    ∧ activation_loop (⟨f, ord⟩ :: ss) p = .resourceError n (rag_file_state (f n)).2
    ∧ activation_fetched (⟨f, ord⟩ :: ss) p = pre ++ [n]
    ∧ exit_code (activation_loop (⟨f, ord⟩ :: ss) p) = 1 := by
  have hrs := run_sweep_error_first f pre post n hpre hn
  have hsf := sweep_fetched_error_first f pre post n hpre hn
  cases p with
  | nil => exact absurd rfl hp
  | cons a as =>
      have hloop : activation_loop (⟨f, ord⟩ :: ss) (a :: as) =
          .resourceError n (rag_file_state (f n)).2 := by
        simp only [activation_loop, hsnap, hrs]
      have hfetched : activation_fetched (⟨f, ord⟩ :: ss) (a :: as) = pre ++ [n] := by
        simp only [activation_fetched, hsnap, hrs, hsf, List.append_nil]
      exact ⟨hrs, hsf, hloop, hfetched, by rw [hloop]; rfl⟩

/-- Witness for C4: one pending resource fetched in `ERROR` state aborts
the loop with its name and detail. -/
theorem C4_resource_error_aborts_witness :
    activation_loop
        [⟨fun _ => ⟨some "rf1", some ⟨some "ERROR", some "invalid encoding"⟩⟩, id⟩]
        ["rf1"] =
      .resourceError "rf1" "invalid encoding" :=
  (C4_resource_error_aborts
    (fun _ => ⟨some "rf1", some ⟨some "ERROR", some "invalid encoding"⟩⟩)
    id [] ["rf1"] [] [] "rf1" (by simp) rfl (by simp) (by rfl)).2.2.1

/-- C8: within a sweep that no `ERROR` resource aborts, every name of
the snapshot (the pending set at the sweep's start) is fetched, and —
the snapshot of a CPython `set` having distinct elements — fetched
exactly once; a completing sweep keeps exactly the non-`ACTIVE` names,
so a name removed as `ACTIVE` is out of the surviving pending set and,
since later sweeps only fetch names drawn from it, is never fetched
again in any later sweep. -/
theorem C8_exactly_once_and_no_refetch :
    (∀ (f : String → RagFile) (snap : List String),
        (∀ m ∈ snap, (rag_file_state (f m)).1 ≠ "ERROR") →
        sweep_fetched f snap = snap)
    ∧ (∀ (f : String → RagFile) (snap : List String), snap.Nodup →
        (∀ m ∈ snap, (rag_file_state (f m)).1 ≠ "ERROR") →
        ∀ n ∈ snap, (sweep_fetched f snap).count n = 1)
    ∧ (∀ (f : String → RagFile) (snap p' : List String),
        run_sweep f snap = .ok p' →
        p' = snap.filter fun m => !((rag_file_state (f m)).1 == "ACTIVE"))
    ∧ (∀ (f : String → RagFile) (snap p' : List String) (n : String),
        run_sweep f snap = .ok p' → (rag_file_state (f n)).1 = "ACTIVE" →
        n ∉ p')
    ∧ (∀ (sweeps : List Sweep) (p : List String) (n : String),
        (∀ s ∈ sweeps, ∀ l x, x ∈ s.order l → x ∈ l) →
        n ∉ p → n ∉ activation_fetched sweeps p)
    ∧ (∀ (s : Sweep) (ss : List Sweep) (p p' : List String) (n : String),
        (∀ t ∈ ss, ∀ l x, x ∈ t.order l → x ∈ l) →
        (rag_file_state (s.fetch n)).1 = "ACTIVE" →
        run_sweep s.fetch (s.order p) = .ok p' →
        n ∉ activation_fetched ss p') := by
  have hnotmem : ∀ (f : String → RagFile) (snap p' : List String) (n : String),
      run_sweep f snap = .ok p' → (rag_file_state (f n)).1 = "ACTIVE" →
      n ∉ p' := by
    intro f snap p' n h hact hmem
    rw [run_sweep_ok_filter _ _ _ h] at hmem
    have := List.of_mem_filter hmem
    rw [hact] at this
    simp at this
  refine ⟨fun f snap h => sweep_fetched_no_error f snap h, ?_, ?_, hnotmem, ?_, ?_⟩
  · intro f snap hnd h n hn
    rw [sweep_fetched_no_error f snap h]
    exact List.count_eq_one_of_mem hnd hn
  · exact fun f snap p' h => run_sweep_ok_filter f snap p' h
  · exact fun sweeps p n hord hn => not_mem_activation_fetched sweeps p n hord hn
  · intro s ss p p' n hord hact hok
    exact not_mem_activation_fetched ss p' n hord (hnotmem _ _ _ _ hok hact)

/-- A `done` snapshot with no error, a zero failed count and one partial
failure: `{"done": true, "response": {"failedRagFilesCount": "0"},
"metadata": {"genericMetadata": {"partialFailures": [ ... ]}}}`. -/
def op_partial_only : Operation :=
  { done := some true
    error := none
    response := some { failedRagFilesCount := some 0 }
    metadata := some ⟨some ⟨some ["file gs://b/bad.ndjson failed to parse"]⟩⟩ }

/-- C1 (evaluation at the failing input): on a `done` snapshot with
`error` absent, a zero failed count and a non-empty partial-failure
list, all three variants print a failure classification and
`import_and_wait_rag_files.py` exits 1, but both sink variants return
exit code 0 — their final return checks only `error` and the failed
count, contradicting their own `return non-zero if failed` comments. -/
theorem C1_sink_exit_ignores_partial_failures :
    classification_is_failure (sink_classify op_partial_only) = true
    ∧ sink_classify op_partial_only =
        .failedImport { failedRagFilesCount := some 0 }
          ["file gs://b/bad.ndjson failed to parse"]
    ∧ import_with_sink_done_exit op_partial_only ⟨0, "", ""⟩ ⟨0, "", ""⟩ = 0
    ∧ import_with_sink_chunked_done_exit op_partial_only ⟨0, "", ""⟩ ⟨0, "", ""⟩ = 0
    ∧ poll_operation [op_partial_only] =
        .importFailures { failedRagFilesCount := some 0 }
          ["file gs://b/bad.ndjson failed to parse"]
    ∧ (∀ listTrace sweeps,
        exit_code (import_and_wait_run [op_partial_only] listTrace sweeps) = 1) := by
  refine ⟨rfl, rfl, rfl, rfl, rfl, ?_⟩
  intro listTrace sweeps
  rfl

/-- C2 counterexample: a clean success run of `import_with_sink.py`
whose `gsutil ls` subprocess exits non-zero returns exit code 1, while
the workflow outcome computed without the sink step is 0 — the
best-effort sink listing does change the exit code. -/
theorem C2_counterexample_ls_failure_flips_exit :
    import_with_sink_done_exit op_success ⟨1, "", "AccessDeniedException"⟩ ⟨0, "", ""⟩ = 1
    ∧ done_exit_no_sink op_success = 0
    ∧ sink_classify op_success = .successReport { failedRagFilesCount := some 0 } := by
  exact ⟨rfl, rfl, rfl⟩

/-- C2 (amended): in the chunked variant the sink subprocesses never
affect the exit code; in `import_with_sink.py` the exit code equals the
no-sink outcome whenever `gsutil ls` exits 0 (whatever its output, and
whatever the `cat` step does), but an `ls` exiting non-zero forces exit
code 1. -/
theorem C2_sink_step_effect (op : Operation) (ls cat ls' cat' : SubprocResult) :
    (ls.returncode = 0 → import_with_sink_done_exit op ls cat = done_exit_no_sink op)
    ∧ (ls.returncode ≠ 0 → import_with_sink_done_exit op ls cat = 1)
    ∧ import_with_sink_chunked_done_exit op ls cat =
        import_with_sink_chunked_done_exit op ls' cat'
    ∧ import_with_sink_chunked_done_exit op ls cat = done_exit_no_sink op := by
  refine ⟨?_, ?_, rfl, rfl⟩
  · intro h
    unfold import_with_sink_done_exit done_exit_no_sink
    rw [h]
    simp
  · intro h
    unfold import_with_sink_done_exit
    rw [if_pos h]

/-- Witness for C2's amended statement: with a successful `ls`, the sink
variant's exit code is the no-sink outcome. -/
theorem C2_sink_step_effect_witness :
    import_with_sink_done_exit op_success ⟨0, "", ""⟩ ⟨0, "", ""⟩ =
      done_exit_no_sink op_success :=
  (C2_sink_step_effect op_success ⟨0, "", ""⟩ ⟨0, "", ""⟩ ⟨1, "", ""⟩ ⟨0, "", ""⟩).1 rfl

/-- What a Google API error response parses to in the chunked variant's
unchecked `session.get(op_url).json()`: a JSON body with an `error` key
and no `done` key. -/
def error_body_op : Operation :=
  { done := none
    error := some "code 500: Internal error encountered"
    response := none, metadata := none }

/-- C9 counterexample: in `import_with_sink_chunked.py`, an operation
GET answered `500` with a JSON error body is not fatal: the body lacks
`done`, so the loop sleeps and retries — with a later good answer the
run even proceeds to completion.  `http_json` of
`import_and_wait_rag_files.py` exits 1 on the same answer. -/
theorem C9_counterexample_chunked_ignores_status :
    chunked_poll_loop [.response 500 (some error_body_op)] = .timedOut
    ∧ chunked_poll_loop
        [.response 500 (some error_body_op), .response 200 (some op_success)] =
        .doneOp op_success
    ∧ http_json (.response 500 (some error_body_op)) = (.error 1 : Except Nat Operation) := by
  exact ⟨rfl, rfl, rfl⟩

/-- C9 (amended): every read of `import_and_wait_rag_files.py` goes
through `http_json`, which exits 1 — with no retry, aborting the rest of
the trace — on a raised request, a non-2xx status or a non-JSON body;
`import_with_sink.py`'s operation GET likewise stops on a raised
request, a status ≥ 400 or a non-JSON body.  The chunked variant stops
on a raised request or a non-JSON body (uncaught exception), but never
inspects the status code: a non-success answer with a JSON body is
treated as a snapshot and, lacking `done`, polled again. -/
theorem C9_read_failure_handling :
    (∀ (m : String), http_json (α := Operation) (.transportError m) = .error 1)
    ∧ (∀ (st : Nat) (b : Option Operation), ¬(200 ≤ st ∧ st < 300) →
        http_json (.response st b) = .error 1)
    ∧ (∀ (st : Nat), http_json (α := Operation) (.response st none) = .error 1)
    ∧ (∀ (a : HttpAttempt Operation) (rest : List (HttpAttempt Operation)),
        http_json a = .error 1 → poll_operation_http (a :: rest) = .error 1)
    ∧ (∀ (m : String) (rest : List (HttpAttempt Operation)),
        sink_poll_loop (.transportError m :: rest) = .crashed)
    ∧ (∀ (st : Nat) (b : Option Operation) (rest : List (HttpAttempt Operation)),
        400 ≤ st → sink_poll_loop (.response st b :: rest) = .httpError)
    ∧ (∀ (m : String) (rest : List (HttpAttempt Operation)),
        chunked_poll_loop (.transportError m :: rest) = .crashed)
    ∧ (∀ (rest : List (HttpAttempt Operation)) (st : Nat),
        chunked_poll_loop (.response st none :: rest) = .crashed)
    ∧ (∀ (st : Nat) (op : Operation) (rest : List (HttpAttempt Operation)),
        opDone op = false →
        chunked_poll_loop (.response st (some op) :: rest) = chunked_poll_loop rest) := by
  refine ⟨fun m => rfl, ?_, fun st => ?_, ?_, fun m rest => rfl, ?_, fun m rest => rfl,
    fun rest st => rfl, ?_⟩
  · intro st b h
    cases b <;> (simp only [http_json]; rw [if_neg h])
  · simp only [http_json]
    split <;> rfl
  · intro a rest h
    simp only [poll_operation_http, h]
  · intro st b rest h
    cases b <;> (simp only [sink_poll_loop]; rw [if_pos h])
  · intro st op rest h
    simp only [chunked_poll_loop, h, Bool.false_eq_true, if_false]

/-- C10: each object in the returned `contexts` list carries exactly the
three fields `sourceUri`, `score` and `text` (witnessed by the type
`AskContext`), with the source identifier and score passed through and
the text the snippet text truncated to at most 800 characters, whatever
the snippet's length. -/
theorem C10_ask_contexts_truncated {σ : Type}
    (cs : List (RetrievedContext σ)) :
    (ask_contexts cs).length = cs.length
    ∧ (∀ o ∈ ask_contexts cs, o.text.length ≤ 800)
    ∧ (∀ c ∈ cs, ∃ o ∈ ask_contexts cs,
        o.sourceUri = c.sourceUri ∧ o.score = c.score ∧
        o.text = (c.text.getD []).take 800) := by
  refine ⟨List.length_map cs ask_context, ?_, ?_⟩
  · intro o ho
    rcases List.mem_map.mp ho with ⟨c, _, rfl⟩
    calc (ask_context c).text.length
        = min 800 (c.text.getD []).length := List.length_take 800 (c.text.getD [])
      _ ≤ 800 := min_le_left _ _
  · intro c hc
    exact ⟨ask_context c, List.mem_map_of_mem ask_context hc, rfl, rfl, rfl⟩

end HelpdeskRag
